import Mathlib

/-!
# Verification of the HysilensViolinPlayer core (src/app.js)

Shallow embedding of the motion-to-gain engine, the fade state machine and
the Standard-MIDI-File byte parser of `src/app.js`, together with theorems
settling the specification claims.  JavaScript `Uint8Array` buffers are
modelled as `List ℕ` with every entry below 256; JavaScript numbers are
modelled as `ℚ` (for audio/tempo arithmetic) or `ℤ`/`ℕ` (for offsets,
byte values and durations).
-/

namespace Hysilens

/-! ## MIDI data model (src/app.js 2608-2913) -/

/-- One decoded note event: `{pitch, velocity, duration}` as pushed by
`parseTrackEvents` (app.js 2748, 2770). -/
structure MidiNote where
  pitch : ℕ
  velocity : ℕ
  duration : ℤ
deriving Repr, DecidableEq

/-- `readInt16` (app.js 2897): `(bytes[o] << 8) | bytes[o+1]`.  An
out-of-range JavaScript index yields `undefined`, which the bitwise
operators coerce to 0, hence `getD _ 0`.  For byte values (< 256) the
32-bit result is the nonnegative big-endian value, returned as `ℤ` so the
source's sign tests (`trackCount < 0`, `division >= 0`) can be kept. -/
def readInt16 (bytes : List ℕ) (off : ℕ) : ℤ :=
  ((bytes.getD off 0 <<< 8) ||| bytes.getD (off + 1) 0 : ℕ)

/-- `readInt32` (app.js 2901): `(b0<<24)|(b1<<16)|(b2<<8)|b3` with
JavaScript's signed 32-bit bitwise semantics: a leading byte ≥ 0x80 makes
the result negative. -/
def readInt32 (bytes : List ℕ) (off : ℕ) : ℤ :=
  let v : ℕ := bytes.getD off 0 * 2 ^ 24 + bytes.getD (off + 1) 0 * 2 ^ 16 +
    bytes.getD (off + 2) 0 * 2 ^ 8 + bytes.getD (off + 3) 0
  if v < 2 ^ 31 then (v : ℤ) else (v : ℤ) - 2 ^ 32

/-- Result of `readVariableLength` (app.js 2867): `{value, bytesRead}`. -/
structure VarLenResult where
  value : ℕ
  bytesRead : ℕ
deriving Repr, DecidableEq

/-- The do-while loop of `readVariableLength` (app.js 2878-2892).  Each
call performs one iteration; the loop runs while the continuation bit is
set and fewer than 4 bytes were read, so `fuel = 4` at entry suffices and
the `bytesRead < 4` test below is the source's own exit condition. -/
def readVarLenLoop (bytes : List ℕ) : ℕ → ℕ → ℕ → ℕ → VarLenResult
  | 0, _, value, bytesRead => ⟨value, bytesRead⟩
  | fuel + 1, co, value, bytesRead =>
    if bytes.length ≤ co then ⟨value, bytesRead⟩
    else
      let byte := bytes.getD co 0
      let value' := (value <<< 7) ||| (byte &&& 0x7F)
      let bytesRead' := bytesRead + 1
      if byte &&& 0x80 ≠ 0 ∧ bytesRead' < 4 then
        readVarLenLoop bytes fuel (co + 1) value' bytesRead'
      else ⟨value', bytesRead'⟩

/-- `readVariableLength` (app.js 2867-2895). -/
def readVariableLength (bytes : List ℕ) (offset : ℕ) : VarLenResult :=
  if bytes.length ≤ offset then ⟨0, 0⟩
  else readVarLenLoop bytes 4 offset 0 0

/-- Floor of the exact rational quotient `a / b`.  For `b > 0` this is
integer division on `ℤ`, which rounds toward negative infinity;
`floorRatio a 0 = 0`, matching the `x / 0 = 0` convention of `ℚ`
(JavaScript would produce an infinity or NaN there; see
`ticksToMilliseconds`). -/
def floorRatio (a b : ℤ) : ℤ :=
  if 0 < b then a / b else if b < 0 then -a / -b else 0

/-- `ticksToMilliseconds` (app.js 2906-2913):
`max(floor((ticks / ticksPerQuarter) * microsecondsPerQuarter / 1000), 100)`.
The source's exact rational value `(ticks / tpq) * µsPerQuarter / 1000` is
computed by integer floor division so that the parser is kernel-evaluable;
`ticksToMilliseconds_eq_floor_formula` below proves it equal to the
direct `ℚ` transcription of the source expression.  The only divergence
from JavaScript is `tpq = 0` (a zero division header field), where
JavaScript divides by zero and produces a non-finite (`Infinity`/`NaN`)
duration while this model yields 100; theorems about durations therefore
assume a nonzero division field and assert nothing about that case. -/
def ticksToMilliseconds (ticks tpq microsecondsPerQuarter : ℤ) : ℤ :=
  max (floorRatio (ticks * microsecondsPerQuarter) (tpq * 1000)) 100

/-- The `activeNotes` map of `parseTrackEvents` (app.js 2685):
`pitch -> {velocity, tick}`, modelled as an association list with entries
`(pitch, velocity, tick)`; only keyed get/set/delete are ever used. -/
abbrev ActiveNotes := List (ℕ × ℕ × ℕ)

/-- `activeNotes.get(pitch)` — `some (velocity, tick)` when present. -/
def anGet (m : ActiveNotes) (pitch : ℕ) : Option (ℕ × ℕ) :=
  (m.find? (fun e => e.1 == pitch)).map (fun e => e.2)

/-- `activeNotes.set(pitch, {velocity, tick})` — replaces an existing entry
of the same pitch, otherwise appends (JavaScript `Map.set`). -/
def anSet (m : ActiveNotes) (pitch velocity tick : ℕ) : ActiveNotes :=
  if m.any (fun e => e.1 == pitch) then
    m.map (fun e => if e.1 == pitch then (pitch, velocity, tick) else e)
  else m ++ [(pitch, velocity, tick)]

/-- `activeNotes.delete(pitch)`. -/
def anDel (m : ActiveNotes) (pitch : ℕ) : ActiveNotes :=
  m.filter (fun e => ¬ e.1 == pitch)

/-- The per-track mutable state of `parseTrackEvents` (app.js 2684-2690):
accumulated `notes`, the `activeNotes` map, `offset`, `currentTick`,
`currentTempo` and `runningStatus`. -/
structure TrackState where
  notes : List MidiNote
  activeNotes : ActiveNotes
  offset : ℕ
  currentTick : ℕ
  currentTempo : ℕ
  runningStatus : ℕ
deriving Repr, DecidableEq

/-- The duplicated Note-Off pairing code (app.js 2744-2750 and 2766-2772):
pop the open note of `pitch`, emit `{pitch, velocity, duration}` computed
from the tick delta, at the current tempo; drop silently when no note of
that pitch is open. -/
def closeNote (tpq : ℤ) (pitch : ℕ) (st : TrackState) : TrackState :=
  match anGet st.activeNotes pitch with
  | some (v, t) =>
    { st with
      notes := st.notes ++
        [⟨pitch, v, ticksToMilliseconds ((st.currentTick : ℤ) - (t : ℤ)) tpq
          (st.currentTempo : ℤ)⟩],
      activeNotes := anDel st.activeNotes pitch }
  | none => st

/-- The status-nibble dispatch switch of `parseTrackEvents`
(app.js 2737-2851).  `st.offset` is the offset just past the status byte;
the returned state carries the updated offset, note list, open-note map
and tempo. -/
def dispatchEvent (bytes : List ℕ) (tpq : ℤ) (status : ℕ) (st : TrackState) :
    TrackState :=
  let statusType := status &&& 0xF0
  if statusType = 0x80 then
    -- Note Off (2738-2754)
    if st.offset + 2 ≤ bytes.length then
      closeNote tpq (bytes.getD st.offset 0) { st with offset := st.offset + 2 }
    else { st with offset := bytes.length }
  else if statusType = 0x90 then
    -- Note On (2756-2777); velocity 0 is treated as Note Off
    if st.offset + 2 ≤ bytes.length then
      let pitch := bytes.getD st.offset 0
      let velocity := bytes.getD (st.offset + 1) 0
      let st2 := { st with offset := st.offset + 2 }
      if 0 < velocity then
        { st2 with activeNotes := anSet st2.activeNotes pitch velocity st2.currentTick }
      else closeNote tpq pitch st2
    else { st with offset := bytes.length }
  else if statusType = 0xA0 ∨ statusType = 0xB0 ∨ statusType = 0xE0 then
    -- two data bytes skipped (2779-2793, 2811-2817)
    if st.offset + 2 ≤ bytes.length then { st with offset := st.offset + 2 }
    else { st with offset := bytes.length }
  else if statusType = 0xC0 ∨ statusType = 0xD0 then
    -- one data byte skipped (2795-2809)
    if st.offset + 1 ≤ bytes.length then { st with offset := st.offset + 1 }
    else { st with offset := bytes.length }
  else if statusType = 0xF0 then
    if status = 0xFF then
      -- Meta event (2820-2835); type 0x51 of length ≥ 3 sets the tempo
      if st.offset < bytes.length then
        let metaType := bytes.getD st.offset 0
        let o := st.offset + 1
        let lr := readVariableLength bytes o
        let o2 := o + lr.bytesRead
        let tempo2 :=
          if metaType = 0x51 ∧ 3 ≤ lr.value ∧ o2 + 3 ≤ bytes.length then
            (bytes.getD o2 0 <<< 16) ||| (bytes.getD (o2 + 1) 0 <<< 8) |||
              bytes.getD (o2 + 2) 0
          else st.currentTempo
        { st with currentTempo := tempo2, offset := o2 + lr.value }
      else st
    else if status = 0xF0 ∨ status = 0xF7 then
      -- SysEx event (2836-2839)
      let lr := readVariableLength bytes st.offset
      { st with offset := st.offset + lr.bytesRead + lr.value }
    else
      -- other system messages (2840-2843)
      { st with offset := st.offset + 1 }
  else
    -- unknown event (2846-2850)
    { st with offset := st.offset + 1 }

/-- The `offset must advance` safety guard (app.js 2853-2857): when the
offset did not move during the iteration it is forced forward by one and
the loop continues. -/
def offsetAdvanceGuard (startOffset offset : ℕ) : ℕ :=
  if offset = startOffset then offset + 1 else offset

/-- One iteration of the event loop of `parseTrackEvents`
(app.js 2695-2858), assuming the loop condition already held.  `none`
models the mid-iteration `break`s (malformed variable-length value,
end-of-data checks at 2716 and 2732, invalid running status). -/
def trackIter (bytes : List ℕ) (endOffset : ℤ) (tpq : ℤ) (st : TrackState) :
    Option TrackState :=
  let startOff := st.offset
  let dtr := readVariableLength bytes st.offset
  if dtr.bytesRead = 0 then none
  else
    let offset1 := st.offset + dtr.bytesRead
    let tick := st.currentTick + dtr.value
    if bytes.length ≤ offset1 ∨ endOffset ≤ (offset1 : ℤ) then none
    else
      let b := bytes.getD offset1 0
      if b &&& 0x80 = 0 ∧ st.runningStatus = 0 then none
      else
        let status := if b &&& 0x80 = 0 then st.runningStatus else b
        let offset2 := if b &&& 0x80 = 0 then offset1 else offset1 + 1
        if bytes.length ≤ offset2 ∨ endOffset ≤ (offset2 : ℤ) then none
        else
          let st2 : TrackState :=
            { st with offset := offset2, currentTick := tick, runningStatus := status }
          let st3 := dispatchEvent bytes tpq status st2
          some { st3 with offset := offsetAdvanceGuard startOff st3.offset }

/-- `maxLoops` (app.js 2692): the 100,000-iterations-per-track safety cap. -/
def maxLoops : ℕ := 100000

/-- The while loop of `parseTrackEvents` (app.js 2695-2858).  `remaining`
counts the iterations the cap still allows (`maxLoops - loopCount`);
`remaining = 0` with the loop condition still true is exactly the source's
`loopCount > maxLoops` break, which returns the accumulated notes — the
same value the normal loop exit returns, so the two exits share the first
equation. -/
def parseTrackLoop (bytes : List ℕ) (endOffset : ℤ) (tpq : ℤ) :
    ℕ → TrackState → List MidiNote
  | 0, st => st.notes
  | r + 1, st =>
    if (st.offset : ℤ) < endOffset ∧ st.offset < bytes.length then
      match trackIter bytes endOffset tpq st with
      | none => st.notes
      | some st2 => parseTrackLoop bytes endOffset tpq r st2
    else st.notes

/-- `parseTrackEvents` (app.js 2683-2865). -/
def parseTrackEvents (bytes : List ℕ) (startOffset : ℕ) (endOffset : ℤ)
    (tpq : ℤ) (baseTempo : ℕ) : List MidiNote :=
  parseTrackLoop bytes endOffset tpq maxLoops
    ⟨[], [], startOffset, 0, baseTempo, 0⟩

/-- JavaScript `bytes[i]` on a `Uint8Array` at a possibly negative or
out-of-range index: `some` byte when in range, otherwise `undefined`
(`none`), which compares unequal to every byte. -/
def byteAtZ (bytes : List ℕ) (i : ℤ) : Option ℕ :=
  if 0 ≤ i ∧ i < (bytes.length : ℤ) then some (bytes.getD i.toNat 0) else none

/-- `ticksPerQuarter = division >= 0 ? division : 480` (app.js 2639). -/
def ticksPerQuarterOf (division : ℤ) : ℤ :=
  if 0 ≤ division then division else 480

/-- The track `for` loop of `parseMidiBytes` (app.js 2644-2671): per track,
validate the `MTrk` marker, read the 32-bit length, abandon this and all
later tracks when the declared end exceeds the buffer, otherwise parse the
track body and continue at `trackEnd`.  The offset is an integer because a
negative `readInt32` length can move `trackEnd` backwards. -/
def parseTracks (bytes : List ℕ) (tpq : ℤ) (baseTempo : ℕ) :
    ℕ → ℤ → List MidiNote
  | 0, _ => []
  | n + 1, offset =>
    if (bytes.length : ℤ) < offset + 8 then []
    else if ¬(byteAtZ bytes offset = some 0x4D ∧
        byteAtZ bytes (offset + 1) = some 0x54 ∧
        byteAtZ bytes (offset + 2) = some 0x72 ∧
        byteAtZ bytes (offset + 3) = some 0x6B) then []
    else
      let trackLength := readInt32 bytes (offset + 4).toNat
      let trackEnd := offset + 8 + trackLength
      if (bytes.length : ℤ) < trackEnd then []
      else
        parseTrackEvents bytes (offset + 8).toNat trackEnd tpq baseTempo ++
          parseTracks bytes tpq baseTempo n trackEnd

/-- `parseMidiBytes` (app.js 2608-2681): header validation, header-field
reads, then the track loop.  The `format` field is read at offset 8 in the
source but never used.  Returns `[]` on every structural violation. -/
def parseMidiBytes (bytes : List ℕ) : List MidiNote :=
  if bytes.length < 14 ∨ bytes.getD 0 0 ≠ 0x4D ∨ bytes.getD 1 0 ≠ 0x54 ∨
      bytes.getD 2 0 ≠ 0x68 ∨ bytes.getD 3 0 ≠ 0x64 then []
  else
    let trackCount := readInt16 bytes 10
    let division := readInt16 bytes 12
    if trackCount < 0 ∨ 1000 < trackCount then []
    else parseTracks bytes (ticksPerQuarterOf division) 500000 trackCount.toNat 14

/-! ## Motion-to-gain engine (src/app.js 1805-1905) -/

/-- The symmetric quadratic ease-in-out curve used both by the gain curve
(app.js 1872-1874) and by the fade-in easing (app.js 679-683):
`p < 0.5 ? 2p² : 1 - 2(1-p)²`. -/
def easeInOut (p : ℚ) : ℚ :=
  if p < 1/2 then 2 * p * p else 1 - 2 * (1 - p) ^ 2

/-- `MAX_MOTION_SPEED` (app.js 80). -/
def maxMotionSpeed : ℚ := 250

/-- The target-gain computation of `updateAudioVolume` (app.js 1856-1903)
as the spec's `computeTargetGain(motionSpeed, threshold, maxGain)`:
normalize the motion speed against `MAX_MOTION_SPEED`, saturate at
`maxGain` above the threshold, otherwise ease the below-threshold ramp and
pause (`shouldPlay = false`) under the 5 % floor. -/
def computeTargetGain (motionSpeed threshold maxGain : ℚ) : ℚ × Bool :=
  let normalizedSpeed := min (motionSpeed / maxMotionSpeed) 1
  if threshold ≤ normalizedSpeed then (maxGain, true)
  else
    let gradientProgress := min (normalizedSpeed / threshold) 1
    let smoothProgress := easeInOut gradientProgress
    let targetVolume := smoothProgress * maxGain
    (targetVolume, !decide (targetVolume < maxGain * (5/100)))

/-- Bow direction as displayed by `detectBowDirection` (app.js 1805-1824);
`unknown` is the initial `this.bowDirection = 'Unknown'` (app.js 43). -/
inductive BowDir
  | unknown
  | up
  | down
deriving Repr, DecidableEq

/-- State of the bow-direction detector: `lastBowDirection` (0 initially,
app.js 42; ±1 afterwards) and the displayed `bowDirection`. -/
structure BowState where
  lastBowDirection : ℤ
  bowDirection : BowDir
deriving Repr, DecidableEq

/-- `detectBowDirection` (app.js 1805-1824) on one sample's `ax` value:
hysteresis around ±0.2, one-shot change signal (the returned `Bool`,
modelling the `directionChange` badge blink) fired only when both the new
and the previous direction are nonzero and differ. -/
def detectBowDirection (ax : ℚ) (st : BowState) : BowState × Bool :=
  let currentDirection : ℤ :=
    if 1/5 < ax then 1 else if ax < -(1/5) then -1 else st.lastBowDirection
  let fired := currentDirection ≠ 0 ∧ st.lastBowDirection ≠ 0 ∧
    currentDirection ≠ st.lastBowDirection
  let st1 :=
    if fired then
      { st with bowDirection := if 0 < currentDirection then .up else .down }
    else st
  if currentDirection ≠ 0 then
    (⟨currentDirection, if 0 < currentDirection then .up else .down⟩,
      decide fired)
  else (st1, decide fired)

/-- Feed a sequence of `ax` samples through `detectBowDirection`,
collecting the displayed direction and the change signal per sample. -/
def detectBowSeq (st : BowState) : List ℚ → List (BowDir × Bool)
  | [] => []
  | ax :: rest =>
    let (st2, fired) := detectBowDirection ax st
    (st2.bowDirection, fired) :: detectBowSeq st2 rest

/-! ## Fade/ramp state machine (src/app.js 627-733, 546-553) -/

/-- Volume clamping into the unit interval, as done both on entry of
`smoothSetAudioVolume` (app.js 628) and by `setAudioVolume` (app.js 549). -/
def clampVolume (v : ℚ) : ℚ := max 0 (min 1 v)

/-- Fade configuration: `fadeInDuration` (default 500, app.js 71),
`fadeOutDuration` (default 30, app.js 72) and `volumeHistorySize`
(default 5, app.js 76). -/
structure FadeConfig where
  fadeInDuration : ℚ
  fadeOutDuration : ℚ
  volumeHistorySize : ℕ
deriving Repr, DecidableEq

/-- The audio-side mutable state used by `smoothSetAudioVolume`:
`currentVolume` (app.js 64/553), the fade-state fields (app.js 67-70 plus
`currentFadeDirection`, stored as `fadeDirIn = (direction === 'in')`), and
the volume-history smoothing pass (app.js 75-77). -/
structure AudioState where
  currentVolume : ℚ
  isFading : Bool
  fadeStartTime : ℚ
  fadeStartVolume : ℚ
  fadeTargetVolume : ℚ
  fadeDirIn : Bool
  volumeHistory : List ℚ
  smoothedVolume : ℚ
deriving Repr, DecidableEq

/-- The fade-start detection of `smoothSetAudioVolume` (app.js 631-655):
on a qualifying zero-crossing with the relevant fade duration enabled and
no fade in flight, arm a new fade, clear the volume history and reset the
smoothed volume to the current volume. -/
def fadeStartPhase (cfg : FadeConfig) (st : AudioState) (clampedTarget now : ℚ) :
    AudioState :=
  let currentVol := st.currentVolume
  let isFadingFromZero := currentVol < 1/100 ∧ 1/100 < clampedTarget
  let isFadingToZero := 1/100 < currentVol ∧ clampedTarget < 1/100
  let shouldFade := (isFadingFromZero ∧ 0 < cfg.fadeInDuration) ∨
    (isFadingToZero ∧ 0 < cfg.fadeOutDuration)
  if shouldFade ∧ st.isFading = false then
    { st with
      isFading := true
      fadeStartTime := now
      fadeStartVolume := currentVol
      fadeTargetVolume := clampedTarget
      fadeDirIn := decide isFadingFromZero
      volumeHistory := []
      smoothedVolume := currentVol }
  else st

/-- The fade computation of `smoothSetAudioVolume` (app.js 657-718),
returning the updated state and `volumeToSet`: mid-fade target redirects
(app.js 661-666), direction-specific easing (app.js 672-684), and the four
early/normal termination conditions (app.js 692-711) which snap the output
to the current clamped target.  `currentVol` is the caller's
`this.currentVolume` read at entry (app.js 629). -/
def fadeComputePhase (cfg : FadeConfig) (st : AudioState)
    (clampedTarget currentVol now : ℚ) : AudioState × ℚ :=
  let isFadingFromZero := currentVol < 1/100 ∧ 1/100 < clampedTarget
  let isFadingToZero := 1/100 < currentVol ∧ clampedTarget < 1/100
  let shouldFade := (isFadingFromZero ∧ 0 < cfg.fadeInDuration) ∨
    (isFadingToZero ∧ 0 < cfg.fadeOutDuration)
  if st.isFading = true then
    let targetChanged := 2/100 < |st.fadeTargetVolume - clampedTarget|
    let st2 := { st with
      fadeTargetVolume := if targetChanged then clampedTarget else st.fadeTargetVolume }
    let elapsed := now - st2.fadeStartTime
    let fadeDuration := if st2.fadeDirIn then cfg.fadeInDuration else cfg.fadeOutDuration
    let progress := if 0 < fadeDuration then min (elapsed / fadeDuration) 1 else 1
    let easedProgress :=
      if st2.fadeDirIn = false then 1 - (1 - progress) ^ 20 else easeInOut progress
    let volumeRange := st2.fadeTargetVolume - st2.fadeStartVolume
    let fadeVolume := st2.fadeStartVolume + volumeRange * easedProgress
    let reachedTarget := |currentVol - clampedTarget| < 1/100
    let directionChanged :=
      (st2.fadeStartVolume < clampedTarget ∧ clampedTarget < currentVol) ∨
      (clampedTarget < st2.fadeStartVolume ∧ currentVol < clampedTarget)
    let closeEnough := |currentVol - clampedTarget| < 5/100 ∧ ¬targetChanged
    if 1 ≤ progress ∨ reachedTarget ∨ directionChanged ∨ closeEnough then
      ({ st2 with isFading := false }, clampedTarget)
    else (st2, fadeVolume)
  else if ¬shouldFade then (st, clampedTarget)
  else (st, currentVol)

/-- The moving-average smoothing pass of `smoothSetAudioVolume`
(app.js 720-732) followed by `setAudioVolume` (app.js 546-553), which
clamps the smoothed volume into `[0, 1]` and stores it as
`currentVolume`. -/
def smoothingPhase (cfg : FadeConfig) (st : AudioState) (volumeToSet : ℚ) :
    AudioState :=
  let history1 := st.volumeHistory ++ [volumeToSet]
  let history2 := if cfg.volumeHistorySize < history1.length then history1.drop 1 else history1
  let smoothed := history2.sum / (history2.length : ℚ)
  { st with
    volumeHistory := history2
    smoothedVolume := smoothed
    currentVolume := clampVolume smoothed }

/-- `smoothSetAudioVolume(targetVolume)` (app.js 627-733) at time `now`
(`Date.now()`), returning the updated state together with the fade output
`volumeToSet` that is pushed into the volume history. -/
def smoothSetAudioVolume (cfg : FadeConfig) (st : AudioState)
    (targetVolume now : ℚ) : AudioState × ℚ :=
  let clampedTarget := clampVolume targetVolume
  let currentVol := st.currentVolume
  let st1 := fadeStartPhase cfg st clampedTarget now
  let r := fadeComputePhase cfg st1 clampedTarget currentVol now
  (smoothingPhase cfg r.1 r.2, r.2)

/-! ## Note sequencer trigger gains (src/app.js 2070-2164) -/

/-- The gain applied by `playMidiNoteWithViolinSample` (app.js 2078-2093):
`velocity/127` scaled by `maxVolume` in test playback, or additionally by
the normalized motion speed in IMU playback, floored at 0.001 by the
`Math.max(volume, 0.001)` in `setValueAtTime`. -/
def violinNoteGain (velocity : ℕ) (isTestPlaying : Bool)
    (motionSpeed maxVolume : ℚ) : ℚ :=
  let velocityVolume := (velocity : ℚ) / 127
  let volume :=
    if isTestPlaying then velocityVolume * maxVolume
    else velocityVolume * min (motionSpeed / maxMotionSpeed) 1 * maxVolume
  max volume (1/1000)

/-- The playback rate of `playMidiNoteWithViolinSample` (app.js 2095-2100):
`1.059463^(pitch - 69)` clamped into `[0.5, 2.0]`. -/
def violinPlaybackRate (pitch : ℕ) : ℚ :=
  let rate := (1059463 / 1000000 : ℚ) ^ ((pitch : ℤ) - 69)
  max (1/2) (min 2 rate)

/-- The gain applied by `playMidiNoteWithSineWave` (app.js 2139-2152):
`maxVolume` in test playback or `normalizedSpeed * maxVolume` in IMU
playback — the note's velocity is not used — floored at 0.001. -/
def sineNoteGain (isTestPlaying : Bool) (motionSpeed maxVolume : ℚ) : ℚ :=
  let volume :=
    if isTestPlaying then maxVolume
    else min (motionSpeed / maxMotionSpeed) 1 * maxVolume
  max volume (1/1000)

/-! ## Concrete inputs used by the scenario theorems and counterexamples -/

/-- Modelled from the spec: the claim's reading of the offset-advance
guard, under which an offset that failed to advance aborts the track
(`none`) instead of being forced forward.  Compared against the source's
`offsetAdvanceGuard` (app.js 2853-2857), which never aborts. -/
def offsetAdvanceGuardSpec (startOffset offset : ℕ) : Option ℕ :=
  if offset = startOffset then none else some offset

/-- The spec's single-note scenario file: `MThd`, format 0, one track,
division 480; `MTrk` of length 9 containing delta 0, Note-On pitch 69
velocity 80, delta 240 (variable-length `81 70`), Note-Off pitch 69. -/
def c1Bytes : List ℕ :=
  [0x4D, 0x54, 0x68, 0x64, 0, 0, 0, 6, 0, 0, 0, 1, 0x01, 0xE0,
   0x4D, 0x54, 0x72, 0x6B, 0, 0, 0, 9,
   0x00, 0x90, 69, 80, 0x81, 0x70, 0x80, 69, 64]

/-- A file whose division field `E2 50` has the SMPTE sign bit set
(unsigned value 57936): one track, Note-On pitch 69 at tick 0, Note-Off at
tick 57936 (variable-length `83 C4 50`). -/
def c4Bytes : List ℕ :=
  [0x4D, 0x54, 0x68, 0x64, 0, 0, 0, 6, 0, 0, 0, 1, 0xE2, 0x50,
   0x4D, 0x54, 0x72, 0x6B, 0, 0, 0, 10,
   0x00, 0x90, 69, 80, 0x83, 0xC4, 0x50, 0x80, 69, 64]

/-- A malformed file whose note data bytes carry the value 200 (`C8`,
above the MIDI data-byte range): Note-On pitch 200 then Note-Off
pitch 200, both at tick 0. -/
def c5Bytes : List ℕ :=
  [0x4D, 0x54, 0x68, 0x64, 0, 0, 0, 6, 0, 0, 0, 1, 0x01, 0xE0,
   0x4D, 0x54, 0x72, 0x6B, 0, 0, 0, 8,
   0x00, 0x90, 200, 80, 0x00, 0x80, 200, 64]

/-- The mid-fade `targetChanged` test (app.js 662): the clamped new target
differs from the stored fade target by more than 0.02. -/
def fadeTargetChangedCond (st : AudioState) (clampedTarget : ℚ) : Prop :=
  2/100 < |st.fadeTargetVolume - clampedTarget|

/-- The fade progress at time `now` (app.js 668-670): elapsed time over
the direction's configured duration, capped at 1; defined as 1 when the
duration is not positive. -/
def fadeProgressAt (cfg : FadeConfig) (st : AudioState) (now : ℚ) : ℚ :=
  let fadeDuration := if st.fadeDirIn then cfg.fadeInDuration else cfg.fadeOutDuration
  if 0 < fadeDuration then min ((now - st.fadeStartTime) / fadeDuration) 1 else 1

/-- The fade termination condition of app.js 692-702, phrased over the
pre-call state: progress reached 1; the current output volume is within
0.01 of the (clamped) target; the output crossed past the target relative
to the fade's start volume; or the output is within 0.05 of the target and
the target did not change during this step. -/
def fadeEndCondition (cfg : FadeConfig) (st : AudioState)
    (clampedTarget now : ℚ) : Prop :=
  1 ≤ fadeProgressAt cfg st now ∨
  |st.currentVolume - clampedTarget| < 1/100 ∨
  ((st.fadeStartVolume < clampedTarget ∧ clampedTarget < st.currentVolume) ∨
    (clampedTarget < st.fadeStartVolume ∧ st.currentVolume < clampedTarget)) ∨
  (|st.currentVolume - clampedTarget| < 5/100 ∧
    ¬ fadeTargetChangedCond st clampedTarget)

/-- The fade-start condition of app.js 632-639: a zero-crossing between
the current volume and the clamped target with the relevant fade duration
enabled. -/
def fadeStartCondition (cfg : FadeConfig) (st : AudioState)
    (clampedTarget : ℚ) : Prop :=
  ((st.currentVolume < 1/100 ∧ 1/100 < clampedTarget) ∧ 0 < cfg.fadeInDuration) ∨
  ((1/100 < st.currentVolume ∧ clampedTarget < 1/100) ∧ 0 < cfg.fadeOutDuration)

/-! ## Theorems -/

/-- Validation of the integer-division form of `ticksToMilliseconds`
against the direct `ℚ` transcription of app.js 2906-2913:
`floor((ticks / tpq) * µsPerQuarter / 1000)`, floored at 100.  (`ℚ`
division by zero is 0, which matches `floorRatio _ 0 = 0`.) -/
theorem ticksToMilliseconds_eq_floor_formula (t q T : ℤ) :
    ticksToMilliseconds t q T =
      max ⌊(t : ℚ) / (q : ℚ) * (T : ℚ) / 1000⌋ 100 := by
  unfold ticksToMilliseconds floorRatio
  rcases lt_trichotomy q 0 with hq | hq | hq
  · have hb : q * 1000 < 0 := by nlinarith
    have hb2 : (0 : ℤ) ≤ -(q * 1000) := by omega
    rw [if_neg (by omega), if_pos hb]
    have hcast : ((-(q * 1000)).toNat : ℚ) = ((-(q * 1000) : ℤ) : ℚ) := by
      exact_mod_cast congrArg (fun z : ℤ => (z : ℚ)) (Int.toNat_of_nonneg hb2)
    have hform : (t : ℚ) / (q : ℚ) * (T : ℚ) / 1000 =
        ((-(t * T) : ℤ) : ℚ) / (((-(q * 1000)).toNat : ℕ) : ℚ) := by
      rw [hcast]
      have hq0 : (q : ℚ) ≠ 0 := by exact_mod_cast hq.ne
      push_cast
      field_simp
      try ring
    rw [hform, Rat.floor_intCast_div_natCast]
    rw [show ((-(q * 1000)).toNat : ℤ) = -(q * 1000) from Int.toNat_of_nonneg hb2]
  · subst hq
    norm_num
  · have hb : 0 < q * 1000 := by positivity
    rw [if_pos hb]
    have hcast : ((q * 1000).toNat : ℚ) = ((q * 1000 : ℤ) : ℚ) := by
      exact_mod_cast congrArg (fun z : ℤ => (z : ℚ)) (Int.toNat_of_nonneg hb.le)
    have hform : (t : ℚ) / (q : ℚ) * (T : ℚ) / 1000 =
        ((t * T : ℤ) : ℚ) / (((q * 1000).toNat : ℕ) : ℚ) := by
      rw [hcast]
      have hq0 : (q : ℚ) ≠ 0 := by exact_mod_cast hq.ne'
      push_cast
      field_simp
      try ring
    rw [hform, Rat.floor_intCast_div_natCast]
    rw [show ((q * 1000).toNat : ℤ) = q * 1000 from Int.toNat_of_nonneg hb.le]

/-- C1: parsing the `MThd` format-0 single-track division-480 file whose
track holds a Note-On pitch 69 velocity 80 at tick 0 and a Note-Off for
pitch 69 at tick 240, with the default tempo 500000 µs per quarter in
effect, yields exactly one note event with pitch 69, velocity 80 and
duration 250 ms. -/
theorem parseMidiBytes_single_note_scenario :
    parseMidiBytes c1Bytes = [⟨69, 80, 250⟩] := by decide

/-- C2: on any structural violation — buffer shorter than 14 bytes
(including the empty buffer), first four bytes differing from the ASCII
literal `MThd`, or a track count outside 0..1000 — the MIDI parser
returns the empty note list (it is a total function of the byte list, so
it never throws). -/
theorem parseMidiBytes_structural_violation_empty (bytes : List ℕ)
    (h : bytes.length < 14 ∨ bytes.getD 0 0 ≠ 0x4D ∨ bytes.getD 1 0 ≠ 0x54 ∨
      bytes.getD 2 0 ≠ 0x68 ∨ bytes.getD 3 0 ≠ 0x64 ∨
      readInt16 bytes 10 < 0 ∨ 1000 < readInt16 bytes 10) :
    parseMidiBytes bytes = [] := by
  unfold parseMidiBytes
  by_cases h1 : bytes.length < 14 ∨ bytes.getD 0 0 ≠ 0x4D ∨
      bytes.getD 1 0 ≠ 0x54 ∨ bytes.getD 2 0 ≠ 0x68 ∨ bytes.getD 3 0 ≠ 0x64
  · rw [if_pos h1]
  · rw [if_neg h1]
    have h2 : readInt16 bytes 10 < 0 ∨ 1000 < readInt16 bytes 10 := by
      rcases h with h | h | h | h | h | h | h
      · exact absurd (Or.inl h) h1
      · exact absurd (Or.inr (Or.inl h)) h1
      · exact absurd (Or.inr (Or.inr (Or.inl h))) h1
      · exact absurd (Or.inr (Or.inr (Or.inr (Or.inl h)))) h1
      · exact absurd (Or.inr (Or.inr (Or.inr (Or.inr h)))) h1
      · exact Or.inl h
      · exact Or.inr h
    show (if readInt16 bytes 10 < 0 ∨ 1000 < readInt16 bytes 10 then ([] : List MidiNote)
      else parseTracks bytes (ticksPerQuarterOf (readInt16 bytes 12)) 500000
        (readInt16 bytes 10).toNat 14) = []
    rw [if_pos h2]

/-- Witness for C2 at the empty buffer: the spec's scenario of feeding the
parser an empty byte buffer. -/
theorem parseMidiBytes_structural_violation_empty_witness :
    ([] : List ℕ).length < 14 ∧ parseMidiBytes [] = [] :=
  ⟨by decide, parseMidiBytes_structural_violation_empty [] (Or.inl (by decide))⟩

/-- C4 counterexample: `c4Bytes` has division field `E2 50` — the SMPTE
sign bit is set — yet its single note (240+... ticks at 500000 µs/quarter)
comes out with duration 500 ms, the value obtained from the unsigned
ticks-per-quarter 57936, not the 60350 ms that ticks-per-quarter 480 would
give.  The parser therefore does not fall back to 480 on sign-bit-set
division fields. -/
theorem smpte_division_not_480_cex :
    readInt16 c4Bytes 12 = 57936 ∧ (0x8000 : ℤ) ≤ readInt16 c4Bytes 12 ∧
    parseMidiBytes c4Bytes = [⟨69, 80, 500⟩] ∧
    ticksToMilliseconds 57936 480 500000 = 60350 ∧ (500 : ℤ) ≠ 60350 := by
  decide

/-- C4 (amended): `readInt16` yields a nonnegative (unsigned big-endian)
value for every input, so the `division >= 0` test of app.js 2639 always
succeeds and the ticks-per-quarter always equals the raw 16-bit division
field; the 480 fallback branch is unreachable, including for division
fields with the SMPTE sign bit set. -/
theorem ticksPerQuarter_always_unsigned_division (bytes : List ℕ) :
    0 ≤ readInt16 bytes 12 ∧
    ticksPerQuarterOf (readInt16 bytes 12) = readInt16 bytes 12 := by
  have h : 0 ≤ readInt16 bytes 12 := Int.natCast_nonneg _
  exact ⟨h, if_pos h⟩

/-- C5 counterexample: the malformed file `c5Bytes` makes the parser emit
a note of pitch 200, outside the claimed 0..127 pitch range — the parser
does not validate that note data bytes are below 128. -/
theorem note_pitch_above_127_cex :
    parseMidiBytes c5Bytes = [⟨200, 80, 100⟩] ∧ ¬ (200 : ℕ) ≤ 127 := by
  decide

/-- C8: feeding the bow-direction detector the `ax` sequence
0.3, 0.3, -0.3 from the initial state (last direction 0, displayed
direction `unknown`) produces the displayed directions up, up, down, and
the one-shot direction-changed signal fires exactly once, at the third
sample. -/
theorem bow_direction_scenario :
    detectBowSeq ⟨0, .unknown⟩ [3/10, 3/10, -(3/10)] =
      [(.up, false), (.up, false), (.down, true)] := by
  norm_num [detectBowSeq, detectBowDirection]

/-- C3 counterexample: at the concrete guard input where the offset (5)
failed to advance past its iteration-start value (5), the source's
offset-advance guard continues with the offset forced to 6, whereas the
claim's reading (`offsetAdvanceGuardSpec`) aborts the track; the two
disagree. -/
theorem offset_guard_continues_cex :
    offsetAdvanceGuard 5 5 = 6 ∧ offsetAdvanceGuardSpec 5 5 = none ∧
    some (offsetAdvanceGuard 5 5) ≠ offsetAdvanceGuardSpec 5 5 := by decide

/-- C3 (amended): tripping the 100,000-iterations-per-track cap
(`remaining = 0` with the loop condition still true) aborts the current
track only — the loop returns the notes accumulated so far, and the track
loop of `parseMidiBytes` continues with the remaining tracks at `trackEnd`
independently of the track body's outcome; the offset-advance guard, by
contrast, does not abort: it forces the offset ahead by one and parsing
continues. -/
theorem iteration_cap_aborts_track_only (bytes : List ℕ)
    (endOffset tpq : ℤ) (baseTempo : ℕ) (st : TrackState) (offset : ℤ)
    (n s : ℕ)
    (hcond : (st.offset : ℤ) < endOffset ∧ st.offset < bytes.length)
    (hhdr : byteAtZ bytes offset = some 0x4D ∧
      byteAtZ bytes (offset + 1) = some 0x54 ∧
      byteAtZ bytes (offset + 2) = some 0x72 ∧
      byteAtZ bytes (offset + 3) = some 0x6B)
    (hlen : ¬ (bytes.length : ℤ) < offset + 8)
    (hend : ¬ (bytes.length : ℤ) < offset + 8 + readInt32 bytes (offset + 4).toNat) :
    parseTrackLoop bytes endOffset tpq 0 st = st.notes ∧
    parseTracks bytes tpq baseTempo (n + 1) offset =
      parseTrackEvents bytes (offset + 8).toNat
          (offset + 8 + readInt32 bytes (offset + 4).toNat) tpq baseTempo ++
        parseTracks bytes tpq baseTempo n
          (offset + 8 + readInt32 bytes (offset + 4).toNat) ∧
    offsetAdvanceGuard s s = s + 1 := by
  refine ⟨rfl, ?_, by simp [offsetAdvanceGuard]⟩
  simp only [parseTracks]
  rw [if_neg hlen, if_neg (not_not_intro hhdr), if_neg hend]


/-- Witness for C3: the cap and track-independence statements applied to
the concrete file `c1Bytes`, with the guard evaluated at offset 7. -/
theorem iteration_cap_aborts_track_only_witness :
    (((22 : ℕ) : ℤ) < 31 ∧ (22 : ℕ) < c1Bytes.length) ∧
    parseTrackLoop c1Bytes 31 480 0 ⟨[⟨69, 80, 250⟩], [], 22, 0, 500000, 0⟩ =
      [⟨69, 80, 250⟩] ∧
    parseTracks c1Bytes 480 500000 1 14 =
      parseTrackEvents c1Bytes 22 31 480 500000 ++
        parseTracks c1Bytes 480 500000 0 31 ∧
    offsetAdvanceGuard 7 7 = 8 :=
  ⟨by decide,
    iteration_cap_aborts_track_only c1Bytes 31 480 500000
      ⟨[⟨69, 80, 250⟩], [], 22, 0, 500000, 0⟩ 14 0 7
      (by decide) (by decide) (by decide) (by decide)⟩

/-- C9 counterexample: a note of velocity 64 played through the sine-wave
fallback in test playback with maximum gain 1 is triggered at gain 1 —
the sine path ignores the velocity — whereas the claim's formula
`velocity/127 * maxGain` gives 64/127 ≠ 1. -/
theorem sine_gain_ignores_velocity_cex :
    sineNoteGain true 0 1 = 1 ∧ (64 : ℚ) / 127 * 1 ≠ 1 := by
  constructor
  · norm_num [sineNoteGain]
  · norm_num

/-- C9 (amended): the violin-sample path triggers at gain
`max(velocity/127 * (test ? maxGain : normalizedSpeed * maxGain), 0.001)`,
the sine-wave fallback at
`max((test ? maxGain : normalizedSpeed * maxGain), 0.001)` with the
velocity factor omitted, and the sample playback rate is
`1.059463^(pitch-69)` clamped into the interval from 0.5 to 2 (equal to
the unclamped power whenever that power already lies in the interval). -/
theorem note_trigger_gain_and_rate (velocity pitch : ℕ) (isTest : Bool)
    (ms mv : ℚ) :
    violinNoteGain velocity isTest ms mv =
      max ((velocity : ℚ) / 127 *
        (if isTest then mv else min (ms / maxMotionSpeed) 1 * mv)) (1/1000) ∧
    sineNoteGain isTest ms mv =
      max (if isTest then mv else min (ms / maxMotionSpeed) 1 * mv) (1/1000) ∧
    1/2 ≤ violinPlaybackRate pitch ∧ violinPlaybackRate pitch ≤ 2 ∧
    (1/2 ≤ (1059463/1000000 : ℚ) ^ ((pitch : ℤ) - 69) →
      (1059463/1000000 : ℚ) ^ ((pitch : ℤ) - 69) ≤ 2 →
      violinPlaybackRate pitch = (1059463/1000000 : ℚ) ^ ((pitch : ℤ) - 69)) := by
  refine ⟨?_, ?_, le_max_left _ _, max_le (by norm_num) (min_le_left _ _), ?_⟩
  · cases isTest <;> simp [violinNoteGain, mul_assoc]
  · cases isTest <;> simp [sineNoteGain]
  · intro h1 h2
    show max (1/2) (min 2 ((1059463/1000000 : ℚ) ^ ((pitch : ℤ) - 69))) = _
    rw [min_eq_right h2, max_eq_right h1]

/-- Witness for C9 at velocity 64, pitch 69, test playback, motion speed
0, maximum gain 1. -/
theorem note_trigger_gain_and_rate_witness :
    violinNoteGain 64 true 0 1 =
      max ((64 : ℚ) / 127 * (if true then 1 else min ((0 : ℚ) / maxMotionSpeed) 1 * 1)) (1/1000) ∧
    sineNoteGain true 0 1 =
      max (if true then (1 : ℚ) else min ((0 : ℚ) / maxMotionSpeed) 1 * 1) (1/1000) ∧
    1/2 ≤ violinPlaybackRate 69 ∧ violinPlaybackRate 69 ≤ 2 ∧
    (1/2 ≤ (1059463/1000000 : ℚ) ^ (((69 : ℕ) : ℤ) - 69) →
      (1059463/1000000 : ℚ) ^ (((69 : ℕ) : ℤ) - 69) ≤ 2 →
      violinPlaybackRate 69 = (1059463/1000000 : ℚ) ^ (((69 : ℕ) : ℤ) - 69)) :=
  note_trigger_gain_and_rate 64 69 true 0 1

/-! ### C5: bounds on every emitted note -/

/-- Every defaulted read from a byte buffer stays below 256. -/
theorem getD_lt_of_bytes {bytes : List ℕ} (h : ∀ b ∈ bytes, b < 256)
    (i : ℕ) : bytes.getD i 0 < 256 := by
  by_cases hi : i < bytes.length
  · rw [bytes.getD_eq_getElem 0 hi]
    exact h _ (List.getElem_mem _)
  · rw [bytes.getD_eq_default 0 (by omega)]
    norm_num

/-- A velocity retrieved from the open-note map obeys the map's bound. -/
theorem anGet_velocity_lt {m : ActiveNotes}
    (hact : ∀ e ∈ m, e.2.1 < 256) {p v t : ℕ}
    (h : anGet m p = some (v, t)) : v < 256 := by
  unfold anGet at h
  cases hf : m.find? (fun e => e.1 == p) with
  | none => rw [hf] at h; simp at h
  | some e =>
    rw [hf] at h
    simp at h
    have hm := hact e (List.mem_of_find?_eq_some hf)
    rw [h] at hm
    exact hm

/-- `anSet` preserves the velocity bound when the inserted velocity obeys
it. -/
theorem anSet_velocity_lt {m : ActiveNotes}
    (hact : ∀ e ∈ m, e.2.1 < 256) {p v t : ℕ} (hv : v < 256) :
    ∀ e ∈ anSet m p v t, e.2.1 < 256 := by
  unfold anSet
  split_ifs
  · intro e he
    rcases List.mem_map.mp he with ⟨a, ha, rfl⟩
    by_cases hp : a.1 == p
    · simpa [hp] using hv
    · simpa [hp] using hact a ha
  · intro e he
    rcases List.mem_append.mp he with ha | ha
    · exact hact e ha
    · rw [List.mem_singleton.mp ha]
      exact hv

/-- `anDel` preserves the velocity bound. -/
theorem anDel_velocity_lt {m : ActiveNotes}
    (hact : ∀ e ∈ m, e.2.1 < 256) (p : ℕ) :
    ∀ e ∈ anDel m p, e.2.1 < 256 :=
  fun e he => hact e (List.mem_of_mem_filter he)

/-- The note-bounds invariant through `closeNote`: pitches and velocities
of accumulated notes are below 256, durations at least 100, and open-note
velocities below 256. -/
theorem closeNote_inv {tpq : ℤ} {pitch : ℕ} {st : TrackState}
    (hp : pitch < 256)
    (hnotes : ∀ n ∈ st.notes, n.pitch < 256 ∧ n.velocity < 256 ∧ 100 ≤ n.duration)
    (hact : ∀ e ∈ st.activeNotes, e.2.1 < 256) :
    (∀ n ∈ (closeNote tpq pitch st).notes,
      n.pitch < 256 ∧ n.velocity < 256 ∧ 100 ≤ n.duration) ∧
    (∀ e ∈ (closeNote tpq pitch st).activeNotes, e.2.1 < 256) := by
  unfold closeNote
  cases hg : anGet st.activeNotes pitch with
  | none => exact ⟨hnotes, hact⟩
  | some vt =>
    obtain ⟨v, t⟩ := vt
    constructor
    · intro n hn
      rcases List.mem_append.mp hn with hn | hn
      · exact hnotes n hn
      · rw [List.mem_singleton.mp hn]
        exact ⟨hp, anGet_velocity_lt hact hg, le_max_right _ _⟩
    · exact anDel_velocity_lt hact pitch

set_option maxHeartbeats 1000000 in
/-- The note-bounds invariant through the event dispatch. -/
theorem dispatchEvent_inv {bytes : List ℕ} {tpq : ℤ} {status : ℕ}
    {st : TrackState} (h256 : ∀ b ∈ bytes, b < 256)
    (hnotes : ∀ n ∈ st.notes, n.pitch < 256 ∧ n.velocity < 256 ∧ 100 ≤ n.duration)
    (hact : ∀ e ∈ st.activeNotes, e.2.1 < 256) :
    (∀ n ∈ (dispatchEvent bytes tpq status st).notes,
      n.pitch < 256 ∧ n.velocity < 256 ∧ 100 ≤ n.duration) ∧
    (∀ e ∈ (dispatchEvent bytes tpq status st).activeNotes, e.2.1 < 256) := by
  unfold dispatchEvent
  dsimp only
  split_ifs <;>
    first
      | exact ⟨hnotes, hact⟩
      | exact closeNote_inv (getD_lt_of_bytes h256 _) hnotes hact
      | exact ⟨hnotes, anSet_velocity_lt hact (getD_lt_of_bytes h256 _)⟩

/-- The note-bounds invariant through one loop iteration. -/
theorem trackIter_inv {bytes : List ℕ} {endOffset tpq : ℤ}
    {st st2 : TrackState} (h256 : ∀ b ∈ bytes, b < 256)
    (hnotes : ∀ n ∈ st.notes, n.pitch < 256 ∧ n.velocity < 256 ∧ 100 ≤ n.duration)
    (hact : ∀ e ∈ st.activeNotes, e.2.1 < 256)
    (h : trackIter bytes endOffset tpq st = some st2) :
    (∀ n ∈ st2.notes, n.pitch < 256 ∧ n.velocity < 256 ∧ 100 ≤ n.duration) ∧
    (∀ e ∈ st2.activeNotes, e.2.1 < 256) := by
  simp only [trackIter] at h
  split_ifs at h <;> first
    | exact Option.noConfusion h
    | (injection h with h
       rw [← h]
       exact dispatchEvent_inv h256 hnotes hact)

/-- The note-bounds invariant through the whole track loop. -/
theorem parseTrackLoop_inv {bytes : List ℕ} {endOffset tpq : ℤ}
    (h256 : ∀ b ∈ bytes, b < 256) :
    ∀ (remaining : ℕ) (st : TrackState),
      (∀ n ∈ st.notes, n.pitch < 256 ∧ n.velocity < 256 ∧ 100 ≤ n.duration) →
      (∀ e ∈ st.activeNotes, e.2.1 < 256) →
      ∀ n ∈ parseTrackLoop bytes endOffset tpq remaining st,
        n.pitch < 256 ∧ n.velocity < 256 ∧ 100 ≤ n.duration := by
  intro remaining
  induction remaining with
  | zero => intro st hnotes _; rw [parseTrackLoop]; exact hnotes
  | succ r ih =>
    intro st hnotes hact
    rw [parseTrackLoop]
    split_ifs with hc
    · cases hit : trackIter bytes endOffset tpq st with
      | none => exact hnotes
      | some st2 =>
        obtain ⟨h1, h2⟩ := trackIter_inv h256 hnotes hact hit
        exact ih st2 h1 h2
    · exact hnotes

/-- The note-bounds invariant through the track `for` loop. -/
theorem parseTracks_inv {bytes : List ℕ} {tpq : ℤ} {baseTempo : ℕ}
    (h256 : ∀ b ∈ bytes, b < 256) :
    ∀ (n : ℕ) (offset : ℤ),
      ∀ note ∈ parseTracks bytes tpq baseTempo n offset,
        note.pitch < 256 ∧ note.velocity < 256 ∧ 100 ≤ note.duration := by
  intro n
  induction n with
  | zero => intro offset note hnote; rw [parseTracks] at hnote; simp at hnote
  | succ m ih =>
    intro offset note hnote
    simp only [parseTracks] at hnote
    split_ifs at hnote <;> try simp at hnote
    rcases hnote with hmem | hmem
    · exact parseTrackLoop_inv h256 maxLoops _ (by simp) (by simp) note hmem
    · exact ih _ note hmem

/-- C5 (amended): every note emitted by the MIDI parser on a byte buffer
(entries below 256, as delivered by a `Uint8Array`) has pitch and velocity
below 256 — the raw data-byte range; the claimed 0..127 bound would
require the parser to validate data bytes, which it does not.  The
100 ms duration floor is asserted only for inputs whose 16-bit division
header field is nonzero: a zero division field makes the JavaScript
source divide by zero in `ticksToMilliseconds` and emit a non-finite
duration, a case outside this integer/rational model (see the
`ticksToMilliseconds` doc comment), so no duration bound is claimed
there. -/
theorem parsed_note_bounds (bytes : List ℕ) (h256 : ∀ b ∈ bytes, b < 256)
    (note : MidiNote) (hmem : note ∈ parseMidiBytes bytes) :
    note.pitch < 256 ∧ note.velocity < 256 ∧
    (readInt16 bytes 12 ≠ 0 → 100 ≤ note.duration) := by
  simp only [parseMidiBytes] at hmem
  split_ifs at hmem <;> try simp at hmem
  obtain ⟨h1, h2, h3⟩ := parseTracks_inv h256 _ _ note hmem
  exact ⟨h1, h2, fun _ => h3⟩

/-- Witness for C5: the single-note scenario file satisfies the byte
bound and has a nonzero division field (480), and its one parsed note
obeys the bounds. -/
theorem parsed_note_bounds_witness :
    readInt16 c1Bytes 12 ≠ 0 ∧
    (⟨69, 80, 250⟩ : MidiNote).pitch < 256 ∧
    (⟨69, 80, 250⟩ : MidiNote).velocity < 256 ∧
    (100 : ℤ) ≤ (⟨69, 80, 250⟩ : MidiNote).duration := by
  have h := parsed_note_bounds c1Bytes (by decide) ⟨69, 80, 250⟩ (by decide)
  exact ⟨by decide, h.1, h.2.1, h.2.2 (by decide)⟩

/-! ### C6: gain-curve monotonicity -/

/-- The ease-in-out curve is nonnegative on the unit interval. -/
theorem easeInOut_nonneg {p : ℚ} (hp : 0 ≤ p) (hp1 : p ≤ 1) :
    0 ≤ easeInOut p := by
  unfold easeInOut
  split_ifs with h
  · positivity
  · nlinarith

/-- The ease-in-out curve is bounded by one on the unit interval. -/
theorem easeInOut_le_one {p : ℚ} (hp : 0 ≤ p) (hp1 : p ≤ 1) :
    easeInOut p ≤ 1 := by
  unfold easeInOut
  split_ifs with h
  · nlinarith
  · nlinarith

/-- The ease-in-out curve is monotone on the unit interval. -/
theorem easeInOut_mono {p q : ℚ} (hp : 0 ≤ p) (hpq : p ≤ q) (hq : q ≤ 1) :
    easeInOut p ≤ easeInOut q := by
  unfold easeInOut
  split_ifs with h1 h2
  · nlinarith
  · nlinarith [sq_nonneg (1 - q), sq_nonneg (1 - 2 * p)]
  · linarith
  · nlinarith [sq_nonneg (1 - q), sq_nonneg (1 - p)]

/-- C6: for a fixed threshold in (0, 1] and fixed nonnegative maximum
gain, the target gain computed from the motion speed is monotonically
non-decreasing in the (nonnegative) motion speed; and whenever the
normalized speed `min(motionSpeed/250, 1)` equals the threshold exactly,
the computation returns exactly the maximum gain with the play flag
set. -/
theorem computeTargetGain_monotone_and_threshold_exact
    (threshold maxGain s1 s2 : ℚ)
    (ht : 0 < threshold) (ht1 : threshold ≤ 1) (hg : 0 ≤ maxGain)
    (hs1 : 0 ≤ s1) (h12 : s1 ≤ s2) :
    (computeTargetGain s1 threshold maxGain).1 ≤
      (computeTargetGain s2 threshold maxGain).1 ∧
    (min (s2 / maxMotionSpeed) 1 = threshold →
      computeTargetGain s2 threshold maxGain = (maxGain, true)) := by
  have h250 : (0 : ℚ) < 250 := by norm_num
  constructor
  · have hn12 : min (s1 / maxMotionSpeed) 1 ≤ min (s2 / maxMotionSpeed) 1 := by
      unfold maxMotionSpeed
      exact min_le_min ((div_le_div_right h250).mpr h12) le_rfl
    have hn1_0 : 0 ≤ min (s1 / maxMotionSpeed) 1 := by
      unfold maxMotionSpeed
      exact le_min (div_nonneg hs1 h250.le) zero_le_one
    simp only [computeTargetGain]
    split_ifs with h1 h2 h2
    · exact le_rfl
    · exact absurd (le_trans h1 hn12) h2
    · have hp0 : 0 ≤ min (min (s1 / maxMotionSpeed) 1 / threshold) 1 :=
        le_min (div_nonneg hn1_0 ht.le) zero_le_one
      have hp1 : min (min (s1 / maxMotionSpeed) 1 / threshold) 1 ≤ 1 :=
        min_le_right _ _
      calc easeInOut (min (min (s1 / maxMotionSpeed) 1 / threshold) 1) * maxGain
          ≤ 1 * maxGain :=
            mul_le_mul_of_nonneg_right (easeInOut_le_one hp0 hp1) hg
        _ = maxGain := one_mul _
    · have hp0 : 0 ≤ min (min (s1 / maxMotionSpeed) 1 / threshold) 1 :=
        le_min (div_nonneg hn1_0 ht.le) zero_le_one
      have hp12 : min (min (s1 / maxMotionSpeed) 1 / threshold) 1 ≤
          min (min (s2 / maxMotionSpeed) 1 / threshold) 1 :=
        min_le_min ((div_le_div_right ht).mpr hn12) le_rfl
      have hp21 : min (min (s2 / maxMotionSpeed) 1 / threshold) 1 ≤ 1 :=
        min_le_right _ _
      exact mul_le_mul_of_nonneg_right
        (easeInOut_mono hp0 hp12 hp21) hg
  · intro h
    simp only [computeTargetGain]
    rw [if_pos (le_of_eq h.symm)]

/-- Witness for C6 at threshold 1/2, maximum gain 1, motion speeds 0 and
125 (normalized speed 125/250 = 1/2 = threshold). -/
theorem computeTargetGain_monotone_witness :
    (0 < (1/2 : ℚ)) ∧ ((1/2 : ℚ) ≤ 1) ∧ (0 ≤ (1 : ℚ)) ∧ (0 ≤ (0 : ℚ)) ∧
      ((0 : ℚ) ≤ 125) ∧
    ((computeTargetGain 0 (1/2) 1).1 ≤ (computeTargetGain 125 (1/2) 1).1 ∧
      (min ((125 : ℚ) / maxMotionSpeed) 1 = 1/2 →
        computeTargetGain 125 (1/2) 1 = (1, true))) :=
  ⟨by norm_num, by norm_num, by norm_num, by norm_num, by norm_num,
    computeTargetGain_monotone_and_threshold_exact (1/2) 1 0 125
      (by norm_num) (by norm_num) (by norm_num) (by norm_num) (by norm_num)⟩

/-! ### C7: mid-fade redirect and termination -/

instance (st : AudioState) (ct : ℚ) :
    Decidable (fadeTargetChangedCond st ct) := by
  unfold fadeTargetChangedCond
  infer_instance

/-- The moving-average pass never touches the fade bookkeeping fields. -/
theorem smoothingPhase_fade_fields (cfg : FadeConfig) (st : AudioState)
    (v : ℚ) :
    (smoothingPhase cfg st v).fadeStartTime = st.fadeStartTime ∧
    (smoothingPhase cfg st v).fadeStartVolume = st.fadeStartVolume ∧
    (smoothingPhase cfg st v).fadeDirIn = st.fadeDirIn ∧
    (smoothingPhase cfg st v).fadeTargetVolume = st.fadeTargetVolume ∧
    (smoothingPhase cfg st v).isFading = st.isFading :=
  ⟨rfl, rfl, rfl, rfl, rfl⟩

/-- With a fade already in flight the start-detection phase is inert. -/
theorem fadeStartPhase_of_isFading (cfg : FadeConfig) (st : AudioState)
    (ct now : ℚ) (hF : st.isFading = true) :
    fadeStartPhase cfg st ct now = st := by
  unfold fadeStartPhase
  rw [if_neg]
  simp [hF]

/-- Behaviour of the fade-computation phase on a state that is fading:
timer fields kept, endpoint updated exactly on `fadeTargetChangedCond`,
and termination exactly on `fadeEndCondition`, snapping the output to the
clamped target. -/
theorem fadeComputePhase_spec (cfg : FadeConfig) (st : AudioState)
    (ct now : ℚ) (hF : st.isFading = true) :
    (fadeComputePhase cfg st ct st.currentVolume now).1.fadeStartTime = st.fadeStartTime ∧
    (fadeComputePhase cfg st ct st.currentVolume now).1.fadeStartVolume = st.fadeStartVolume ∧
    (fadeComputePhase cfg st ct st.currentVolume now).1.fadeDirIn = st.fadeDirIn ∧
    (fadeComputePhase cfg st ct st.currentVolume now).1.fadeTargetVolume =
      (if fadeTargetChangedCond st ct then ct else st.fadeTargetVolume) ∧
    ((fadeComputePhase cfg st ct st.currentVolume now).1.isFading = false ↔
      fadeEndCondition cfg st ct now) ∧
    (fadeEndCondition cfg st ct now →
      (fadeComputePhase cfg st ct st.currentVolume now).2 = ct) := by
  unfold fadeComputePhase fadeEndCondition fadeTargetChangedCond fadeProgressAt
  rw [if_pos hF]
  dsimp only
  split_ifs <;> refine ⟨rfl, rfl, rfl, rfl, ?_, ?_⟩ <;> simp_all

/-- C7: while a fade is in progress, a call with a (possibly different)
target volume keeps the fade's start time, start volume and direction —
the timer is not restarted — and only the stored endpoint changes (and
only when the new clamped target differs from it by more than 0.02); the
fade ends (`isFading` drops to `false`, with the emitted fade output
snapped to the current clamped target) exactly when the termination
condition holds: progress at least 1, output within 0.01 of the (possibly
updated) target, output past the target relative to the fade's start
volume, or output within 0.05 of the target with the target unchanged this
step. -/
theorem fade_redirect_and_termination (cfg : FadeConfig) (st : AudioState)
    (targetVolume now : ℚ) (hF : st.isFading = true) :
    (smoothSetAudioVolume cfg st targetVolume now).1.fadeStartTime = st.fadeStartTime ∧
    (smoothSetAudioVolume cfg st targetVolume now).1.fadeStartVolume = st.fadeStartVolume ∧
    (smoothSetAudioVolume cfg st targetVolume now).1.fadeDirIn = st.fadeDirIn ∧
    (smoothSetAudioVolume cfg st targetVolume now).1.fadeTargetVolume =
      (if fadeTargetChangedCond st (clampVolume targetVolume)
        then clampVolume targetVolume else st.fadeTargetVolume) ∧
    ((smoothSetAudioVolume cfg st targetVolume now).1.isFading = false ↔
      fadeEndCondition cfg st (clampVolume targetVolume) now) ∧
    (fadeEndCondition cfg st (clampVolume targetVolume) now →
      (smoothSetAudioVolume cfg st targetVolume now).2 = clampVolume targetVolume) := by
  obtain ⟨e1, e2, e3, e4, e5, e6⟩ :=
    fadeComputePhase_spec cfg st (clampVolume targetVolume) now hF
  have hstart := fadeStartPhase_of_isFading cfg st (clampVolume targetVolume) now hF
  unfold smoothSetAudioVolume
  dsimp only
  rw [hstart]
  exact ⟨e1, e2, e3, e4, e5, e6⟩

/-- Witness for C7: a fade-in in flight (start volume 0, stored target 1)
at volume 1/2, redirected to clamped target 1 at time 100 under the
default configuration. -/
theorem fade_redirect_and_termination_witness :
    ((⟨1/2, true, 0, 0, 1, true, [], 1/2⟩ : AudioState).isFading = true) ∧
    ((smoothSetAudioVolume ⟨500, 30, 5⟩ ⟨1/2, true, 0, 0, 1, true, [], 1/2⟩ 1 100).1.fadeStartTime =
      (⟨1/2, true, 0, 0, 1, true, [], 1/2⟩ : AudioState).fadeStartTime ∧
    (smoothSetAudioVolume ⟨500, 30, 5⟩ ⟨1/2, true, 0, 0, 1, true, [], 1/2⟩ 1 100).1.fadeStartVolume =
      (⟨1/2, true, 0, 0, 1, true, [], 1/2⟩ : AudioState).fadeStartVolume ∧
    (smoothSetAudioVolume ⟨500, 30, 5⟩ ⟨1/2, true, 0, 0, 1, true, [], 1/2⟩ 1 100).1.fadeDirIn =
      (⟨1/2, true, 0, 0, 1, true, [], 1/2⟩ : AudioState).fadeDirIn ∧
    (smoothSetAudioVolume ⟨500, 30, 5⟩ ⟨1/2, true, 0, 0, 1, true, [], 1/2⟩ 1 100).1.fadeTargetVolume =
      (if fadeTargetChangedCond ⟨1/2, true, 0, 0, 1, true, [], 1/2⟩ (clampVolume 1)
        then clampVolume 1
        else (⟨1/2, true, 0, 0, 1, true, [], 1/2⟩ : AudioState).fadeTargetVolume) ∧
    ((smoothSetAudioVolume ⟨500, 30, 5⟩ ⟨1/2, true, 0, 0, 1, true, [], 1/2⟩ 1 100).1.isFading = false ↔
      fadeEndCondition ⟨500, 30, 5⟩ ⟨1/2, true, 0, 0, 1, true, [], 1/2⟩ (clampVolume 1) 100) ∧
    (fadeEndCondition ⟨500, 30, 5⟩ ⟨1/2, true, 0, 0, 1, true, [], 1/2⟩ (clampVolume 1) 100 →
      (smoothSetAudioVolume ⟨500, 30, 5⟩ ⟨1/2, true, 0, 0, 1, true, [], 1/2⟩ 1 100).2 =
        clampVolume 1)) :=
  ⟨rfl, fade_redirect_and_termination ⟨500, 30, 5⟩ ⟨1/2, true, 0, 0, 1, true, [], 1/2⟩ 1 100 rfl⟩

/-! ### C10: volume history cleared on fade start -/

/-- The fade-computation phase never touches the volume history or the
smoothed volume. -/
theorem fadeComputePhase_history (cfg : FadeConfig) (st : AudioState)
    (ct cv now : ℚ) :
    (fadeComputePhase cfg st ct cv now).1.volumeHistory = st.volumeHistory ∧
    (fadeComputePhase cfg st ct cv now).1.smoothedVolume = st.smoothedVolume := by
  unfold fadeComputePhase
  dsimp only
  split_ifs <;> exact ⟨rfl, rfl⟩

/-- C10: when the fade engine starts a new fade — no fade in flight, a
qualifying zero-crossing between the current volume and the clamped
target, and the relevant fade duration positive — the volume-history
buffer is emptied and the smoothed volume reset to the current volume, so
the moving average emitted by that very call is computed only from the
single fade output produced by the call. -/
theorem fade_start_clears_volume_history (cfg : FadeConfig) (st : AudioState)
    (targetVolume now : ℚ) (hF : st.isFading = false)
    (hstart : fadeStartCondition cfg st (clampVolume targetVolume))
    (hsz : 1 ≤ cfg.volumeHistorySize) :
    (fadeStartPhase cfg st (clampVolume targetVolume) now).volumeHistory = [] ∧
    (fadeStartPhase cfg st (clampVolume targetVolume) now).smoothedVolume = st.currentVolume ∧
    (smoothSetAudioVolume cfg st targetVolume now).1.volumeHistory =
      [(smoothSetAudioVolume cfg st targetVolume now).2] ∧
    (smoothSetAudioVolume cfg st targetVolume now).1.smoothedVolume =
      (smoothSetAudioVolume cfg st targetVolume now).2 := by
  have k1 : (fadeStartPhase cfg st (clampVolume targetVolume) now).volumeHistory = [] := by
    unfold fadeStartPhase
    dsimp only
    rw [if_pos ⟨hstart, hF⟩]
  have k1b : (fadeStartPhase cfg st (clampVolume targetVolume) now).smoothedVolume =
      st.currentVolume := by
    unfold fadeStartPhase
    dsimp only
    rw [if_pos ⟨hstart, hF⟩]
  have k2 := (fadeComputePhase_history cfg
    (fadeStartPhase cfg st (clampVolume targetVolume) now)
    (clampVolume targetVolume) st.currentVolume now).1
  rw [k1] at k2
  have hsz2 : ¬ (cfg.volumeHistorySize <
      ((([] : List ℚ) ++ [(fadeComputePhase cfg
        (fadeStartPhase cfg st (clampVolume targetVolume) now)
        (clampVolume targetVolume) st.currentVolume now).2]).length)) := by
    simp
    omega
  refine ⟨k1, k1b, ?_, ?_⟩
  · unfold smoothSetAudioVolume smoothingPhase
    dsimp only
    rw [k2, if_neg hsz2]
    simp
  · unfold smoothSetAudioVolume smoothingPhase
    dsimp only
    rw [k2, if_neg hsz2]
    simp

/-- Witness for C10: an idle state at volume 0 with stale history, driven
toward target 1 under the default configuration. -/
theorem fade_start_clears_volume_history_witness :
    ((⟨0, false, 0, 0, 0, false, [3/10, 2/10], 3/10⟩ : AudioState).isFading = false) ∧
    fadeStartCondition ⟨500, 30, 5⟩ ⟨0, false, 0, 0, 0, false, [3/10, 2/10], 3/10⟩ (clampVolume 1) ∧
    1 ≤ (⟨500, 30, 5⟩ : FadeConfig).volumeHistorySize ∧
    ((fadeStartPhase ⟨500, 30, 5⟩ ⟨0, false, 0, 0, 0, false, [3/10, 2/10], 3/10⟩ (clampVolume 1) 50).volumeHistory = [] ∧
    (fadeStartPhase ⟨500, 30, 5⟩ ⟨0, false, 0, 0, 0, false, [3/10, 2/10], 3/10⟩ (clampVolume 1) 50).smoothedVolume =
      (⟨0, false, 0, 0, 0, false, [3/10, 2/10], 3/10⟩ : AudioState).currentVolume ∧
    (smoothSetAudioVolume ⟨500, 30, 5⟩ ⟨0, false, 0, 0, 0, false, [3/10, 2/10], 3/10⟩ 1 50).1.volumeHistory =
      [(smoothSetAudioVolume ⟨500, 30, 5⟩ ⟨0, false, 0, 0, 0, false, [3/10, 2/10], 3/10⟩ 1 50).2] ∧
    (smoothSetAudioVolume ⟨500, 30, 5⟩ ⟨0, false, 0, 0, 0, false, [3/10, 2/10], 3/10⟩ 1 50).1.smoothedVolume =
      (smoothSetAudioVolume ⟨500, 30, 5⟩ ⟨0, false, 0, 0, 0, false, [3/10, 2/10], 3/10⟩ 1 50).2) :=
  ⟨rfl, by norm_num [fadeStartCondition, clampVolume], by norm_num,
    fade_start_clears_volume_history ⟨500, 30, 5⟩
      ⟨0, false, 0, 0, 0, false, [3/10, 2/10], 3/10⟩ 1 50 rfl
      (by norm_num [fadeStartCondition, clampVolume]) (by norm_num)⟩

end Hysilens